import Mathlib

/-!
Shallow embedding of the job-scheduling lifecycle of `scheduler/models.py`
and `scheduler/forms.py`: a `Job` record (the Django model fields the
lifecycle reads), a per-queue scheduler backend (`Sched`, modelling the
external rq scheduler at its interface), and the operations
`is_scheduled`, `is_schedulable`, `unschedule`, `schedule`,
`schedule_repeatable`, `save`, together with `interval_seconds`
(`RepeatableJob.interval_seconds`) and `clean_scheduled_time`
(`JobAdminForm.clean_scheduled_time`).

Side effects are made explicit: every operation returns the updated
record, the updated world of backends, and the list of externally visible
events (`cancel`, `enqueue`, `persist`) it performed, in order.
-/

set_option maxHeartbeats 1000000

namespace DjangoRqScheduler

/-- State of the external scheduler backend serving one queue (the rq
scheduler behind `django_rq.get_scheduler(queue)`, modelled at the
interface of spec section 4.2): `live` is the set of job ids currently
scheduled, `nextId` the source of fresh job ids (rq issues a fresh unique
id per enqueue), and `failEnqueue` models `BackendUnavailable` being
raised by the enqueue calls. -/
structure Sched where
  live : List Nat
  nextId : Nat
  failEnqueue : Bool
deriving DecidableEq, Repr

/-- Cancel a registration: `scheduler.cancel(job_id)` removes the id from
the scheduled set. Cancelling an absent id is a no-op. -/
def Sched.cancel (s : Sched) (h : Nat) : Sched :=
  { s with live := s.live.filter (fun x => x != h) }

/-- Register new work: `scheduler.enqueue_at(...)` / `scheduler.schedule(...)` /
returns a job carrying a fresh id and records it as scheduled, or raises
(`Except.error`) when the backend is unavailable. -/
def Sched.enqueue (s : Sched) : Except Unit (Nat × Sched) :=
  if s.failEnqueue then Except.error ()
  else Except.ok (s.nextId, { s with live := s.nextId :: s.live, nextId := s.nextId + 1 })

/-- The world of backends: one scheduler per queue name
(`django_rq.get_scheduler(self.queue)`). -/
abbrev World := String → Sched

/-- Replace the scheduler serving queue `q`. -/
def updateW (w : World) (q : String) (s : Sched) : World :=
  fun q2 => if q2 = q then s else w q2

/-- The units of `RepeatableJob.UNITS`: minutes, hours, days, weeks. -/
inductive IntervalUnit where
  | minutes
  | hours
  | days
  | weeks
deriving DecidableEq, Repr

/-- The fields of Python's `datetime.timedelta` that
`RepeatableJob.interval_seconds` can set (each defaults to 0). -/
structure Timedelta where
  weeks : Nat := 0
  days : Nat := 0
  hours : Nat := 0
  minutes : Nat := 0
  seconds : Nat := 0
deriving DecidableEq, Repr

/-- Python's `timedelta.total_seconds()` on the integral fields above
(exact for these magnitudes: a week is 7 days, a day 24 hours, an hour 60
minutes, a minute 60 seconds). -/
def Timedelta.total_seconds (t : Timedelta) : Nat :=
  (((t.weeks * 7 + t.days) * 24 + t.hours) * 60 + t.minutes) * 60 + t.seconds

/-- `RepeatableJob.interval_seconds`: builds `timedelta(**{interval_unit:
interval})` and takes its total seconds. -/
def interval_seconds (u : IntervalUnit) (i : Nat) : Nat :=
  match u with
  | IntervalUnit.minutes => Timedelta.total_seconds { minutes := i }
  | IntervalUnit.hours => Timedelta.total_seconds { hours := i }
  | IntervalUnit.days => Timedelta.total_seconds { days := i }
  | IntervalUnit.weeks => Timedelta.total_seconds { weeks := i }

/-- The fields of a job record that the lifecycle reads (`BaseJob` plus
the `RepeatableJob` additions, flattened). `job_id` is the backend
registration handle: `none` models both SQL NULL and the empty string,
the two falsy values of the nullable `job_id` CharField; the model's
source field name of `repeat_count` is `repeat` (a Lean keyword). -/
structure Job where
  enabled : Bool
  queue : String
  job_id : Option Nat
  timeout : Option Int
  scheduled_time : Int
  interval : Nat
  interval_unit : IntervalUnit
  repeat_count : Option Nat
deriving DecidableEq, Repr

/-- Externally visible effects of the lifecycle operations, in program
order: a backend `cancel` call, a backend enqueue call (`enqueue_at`, with
the timeout kwarg it passed, if any), a repeating enqueue
(`scheduler.schedule`, with its interval/repeat/timeout kwargs), and the
durable store write `super().save()`. -/
inductive Event where
  | cancel (q : String) (h : Nat)
  | enqueue (q : String) (h : Nat) (timeout : Option Int)
  | enqueueRep (q : String) (h : Nat) (interval : Nat) (repeat_count : Option Nat)
      (timeout : Option Int)
  | persist
deriving DecidableEq, Repr

/-- `BaseJob.is_scheduled`: `self.job_id in self.scheduler()`. The rq
scheduler's membership test reports whether the id is currently in its
scheduled set; a null id is never a member. -/
def is_scheduled (j : Job) (w : World) : Bool :=
  match j.job_id with
  | some h => decide (h ∈ (w j.queue).live)
  | none => false

/-- `BaseJob.is_schedulable`: `if self.job_id: return False; return
self.enabled` (a truthy, i.e. non-null non-empty, `job_id` blocks
scheduling). -/
def is_schedulable (j : Job) : Bool :=
  match j.job_id with
  | some _ => false
  | none => j.enabled

/-- The `timeout` kwarg the enqueue calls pass: `if self.timeout:
kwargs['timeout'] = self.timeout`. Python truthiness: both `None` and `0`
are falsy, so no kwarg is passed for them. -/
def timeoutKwarg (j : Job) : Option Int :=
  match j.timeout with
  | some t => if t = 0 then none else some t
  | none => none

/-- `BaseJob.unschedule`: `if self.is_scheduled():
self.scheduler().cancel(self.job_id)`, then `self.job_id = None` (the
method always returns True, which no caller uses). -/
def unschedule (j : Job) (w : World) : Job × World × List Event :=
  match j.job_id with
  | some h =>
      if h ∈ (w j.queue).live then
        ({ j with job_id := none }, updateW w j.queue ((w j.queue).cancel h),
          [Event.cancel j.queue h])
      else
        ({ j with job_id := none }, w, [])
  | none => ({ j with job_id := none }, w, [])

/-- Result of a `schedule()` call: `ret b j w ev` is a normal return of
boolean `b` with the mutated record, world and emitted events; `err j w
ev` is the call raising out (backend unavailable) with the state at the
raise. -/
inductive SchedResult where
  | ret (b : Bool) (j : Job) (w : World) (ev : List Event)
  | err (j : Job) (w : World) (ev : List Event)

/-- The record a `SchedResult` carries. -/
def SchedResult.rjob : SchedResult → Job
  | SchedResult.ret _ j _ _ => j
  | SchedResult.err j _ _ => j

/-- The world a `SchedResult` carries. -/
def SchedResult.rworld : SchedResult → World
  | SchedResult.ret _ _ w _ => w
  | SchedResult.err _ w _ => w

/-- The events a `SchedResult` carries. -/
def SchedResult.revents : SchedResult → List Event
  | SchedResult.ret _ _ _ ev => ev
  | SchedResult.err _ _ ev => ev

/-- True exactly for a normal return of `True`. -/
def SchedResult.isSuccess : SchedResult → Bool
  | SchedResult.ret b _ _ _ => b
  | SchedResult.err _ _ _ => false

/-- `BaseJob.schedule`: guard on `is_schedulable()`, build the kwargs
(timeout only when truthy), call `scheduler().enqueue_at(...)` and store
the returned job's id into `self.job_id`. The enqueue call may raise. -/
def schedule (j : Job) (w : World) : SchedResult :=
  if is_schedulable j = false then SchedResult.ret false j w []
  else
    match (w j.queue).enqueue with
    | Except.error _ => SchedResult.err j w []
    | Except.ok (h, s) =>
        SchedResult.ret true { j with job_id := some h } (updateW w j.queue s)
          [Event.enqueue j.queue h (timeoutKwarg j)]

/-- `RepeatableJob.schedule`: same guard and handle bookkeeping as the
base `schedule`, but calls `scheduler().schedule(...)` with the
interval (in seconds, via `interval_seconds`), the repeat count and the
timeout kwarg. -/
def schedule_repeatable (j : Job) (w : World) : SchedResult :=
  if is_schedulable j = false then SchedResult.ret false j w []
  else
    match (w j.queue).enqueue with
    | Except.error _ => SchedResult.err j w []
    | Except.ok (h, s) =>
        SchedResult.ret true { j with job_id := some h } (updateW w j.queue s)
          [Event.enqueueRep j.queue h (interval_seconds j.interval_unit j.interval)
            j.repeat_count (timeoutKwarg j)]

/-- Result of a `save()` call: `ok` is a completed save (the final
`super().save()` ran), `err` is the call raising out of the enqueue step
with the state at the raise (no store write happened). -/
inductive SaveResult where
  | ok (j : Job) (w : World) (ev : List Event)
  | err (j : Job) (w : World) (ev : List Event)

/-- The record a `SaveResult` carries. -/
def SaveResult.sjob : SaveResult → Job
  | SaveResult.ok j _ _ => j
  | SaveResult.err j _ _ => j

/-- The world a `SaveResult` carries. -/
def SaveResult.sworld : SaveResult → World
  | SaveResult.ok _ w _ => w
  | SaveResult.err _ w _ => w

/-- The events a `SaveResult` carries. -/
def SaveResult.sevents : SaveResult → List Event
  | SaveResult.ok _ _ ev => ev
  | SaveResult.err _ _ ev => ev

/-- True for a completed save. -/
def SaveResult.isOk : SaveResult → Bool
  | SaveResult.ok _ _ _ => true
  | SaveResult.err _ _ _ => false

/-- `BaseJob.save`: `self.unschedule()`, then `if self.enabled:
self.schedule()`, then `super().save(**kwargs)` (the durable store
write, the `persist` event). An exception from the enqueue step
propagates, skipping the store write. -/
def save (j : Job) (w : World) : SaveResult :=
  if (unschedule j w).1.enabled then
    match schedule (unschedule j w).1 (unschedule j w).2.1 with
    | SchedResult.err j2 w2 ev2 => SaveResult.err j2 w2 ((unschedule j w).2.2 ++ ev2)
    | SchedResult.ret _ j2 w2 ev2 =>
        SaveResult.ok j2 w2 ((unschedule j w).2.2 ++ ev2 ++ [Event.persist])
  else
    SaveResult.ok (unschedule j w).1 (unschedule j w).2.1
      ((unschedule j w).2.2 ++ [Event.persist])

/-- A `save()` call collapsed to the state it leaves behind, whether it
completed or raised (the Python object and the backend keep their
mutations either way). -/
def saveRun (j : Job) (w : World) : Job × World × List Event :=
  match save j w with
  | SaveResult.ok j2 w2 ev => (j2, w2, ev)
  | SaveResult.err j2 w2 ev => (j2, w2, ev)

/-- One step of a record's lifetime: a field edit on the in-memory record
(as the admin surface performs before saving) or a `save()` call. -/
inductive Act where
  | setEnabled (b : Bool)
  | setQueue (q : String)
  | setTimeout (t : Option Int)
  | doSave
deriving DecidableEq, Repr

/-- Whether the step edits the `queue` field. -/
def Act.isSetQueue : Act → Bool
  | Act.setQueue _ => true
  | _ => false

/-- Apply one lifecycle step. -/
def applyAct (j : Job) (w : World) : Act → Job × World × List Event
  | Act.setEnabled b => ({ j with enabled := b }, w, [])
  | Act.setQueue q => ({ j with queue := q }, w, [])
  | Act.setTimeout t => ({ j with timeout := t }, w, [])
  | Act.doSave => saveRun j w

/-- Run a sequence of lifecycle steps, accumulating the emitted events. -/
def run (j : Job) (w : World) : List Act → Job × World × List Event
  | [] => (j, w, [])
  | a :: rest =>
      let s1 := applyAct j w a
      let s2 := run s1.1 s1.2.1 rest
      (s2.1, s2.2.1, s1.2.2 ++ s2.2.2)

/-- The backend registrations a trace of events issued: one `(queue,
handle)` pair per enqueue call. -/
def issuedPairs : List Event → List (String × Nat)
  | [] => []
  | Event.enqueue q h _ :: rest => (q, h) :: issuedPairs rest
  | Event.enqueueRep q h _ _ _ :: rest => (q, h) :: issuedPairs rest
  | Event.cancel _ _ :: rest => issuedPairs rest
  | Event.persist :: rest => issuedPairs rest

/-- At most one of the registrations `ps` is live in world `w`: any two
live ones coincide. -/
def atMostOneLive (w : World) (ps : List (String × Nat)) : Prop :=
  ∀ p1 ∈ ps, ∀ p2 ∈ ps, p1.2 ∈ (w p1.1).live → p2.2 ∈ (w p2.1).live → p1 = p2

/-- A field-scoped Django `ValidationError` (raising inside a form's
`clean_<field>` method attaches the message to that field). -/
structure FieldError where
  field : String
  message : String
deriving DecidableEq, Repr

/-- The message `JobAdminForm.clean_scheduled_time` raises (the source
wording is Russian: the scheduled time must be in the future). -/
def future_time_message : String := "scheduled time must be in the future"

/-- `JobAdminForm.clean_scheduled_time`: `if data < now(): raise
ValidationError(...)`, else return the cleaned value. Instants are
modelled as integers; `nowT` is the validation instant `now()`. -/
def clean_scheduled_time (data nowT : Int) : Except FieldError Int :=
  if data < nowT then
    Except.error { field := "scheduled_time", message := future_time_message }
  else
    Except.ok data

/-! Helper lemmas about the operations. -/

theorem updateW_self (w : World) (q : String) (s : Sched) : updateW w q s q = s := by
  simp [updateW]

theorem updateW_other (w : World) (q q2 : String) (s : Sched) (h : q2 ≠ q) :
    updateW w q s q2 = w q2 := by
  simp [updateW, h]

theorem mem_cancel_live (s : Sched) (h x : Nat) :
    x ∈ (s.cancel h).live ↔ x ∈ s.live ∧ x ≠ h := by
  simp [Sched.cancel, List.mem_filter]

theorem issuedPairs_append (a b : List Event) :
    issuedPairs (a ++ b) = issuedPairs a ++ issuedPairs b := by
  induction a with
  | nil => rfl
  | cons e rest ih => cases e <;> simp [issuedPairs, ih]

theorem unschedule_job (j : Job) (w : World) :
    (unschedule j w).1 = { j with job_id := none } := by
  unfold unschedule
  cases j.job_id with
  | none => rfl
  | some h =>
      by_cases hm : h ∈ (w j.queue).live <;> simp [hm]

theorem unschedule_nextId (j : Job) (w : World) (q : String) :
    ((unschedule j w).2.1 q).nextId = (w q).nextId := by
  unfold unschedule
  cases j.job_id with
  | none => rfl
  | some h =>
      by_cases hm : h ∈ (w j.queue).live <;> simp [hm]
      by_cases hq : q = j.queue
      · subst hq; simp [updateW_self, Sched.cancel]
      · simp [updateW_other w j.queue q _ hq]

theorem unschedule_other (j : Job) (w : World) (q : String) (hq : q ≠ j.queue) :
    (unschedule j w).2.1 q = w q := by
  unfold unschedule
  cases j.job_id with
  | none => rfl
  | some h =>
      by_cases hm : h ∈ (w j.queue).live <;> simp [hm]
      exact updateW_other w j.queue q _ hq

theorem unschedule_live (j : Job) (w : World) (x : Nat)
    (hx : x ∈ ((unschedule j w).2.1 j.queue).live) :
    x ∈ (w j.queue).live ∧ j.job_id ≠ some x := by
  revert hx
  unfold unschedule
  cases hj : j.job_id with
  | none => intro hx; exact ⟨hx, by simp⟩
  | some h =>
      by_cases hm : h ∈ (w j.queue).live <;> simp [hm]
      · intro hx
        rw [updateW_self] at hx
        rcases (mem_cancel_live _ h x).1 hx with ⟨hx1, hx2⟩
        exact ⟨hx1, by simp [Ne.symm hx2]⟩
      · intro hx
        refine ⟨hx, ?_⟩
        intro he
        exact hm (he ▸ hx)

theorem unschedule_issued (j : Job) (w : World) :
    issuedPairs (unschedule j w).2.2 = [] := by
  unfold unschedule
  cases j.job_id with
  | none => rfl
  | some h =>
      by_cases hm : h ∈ (w j.queue).live <;> simp [hm] <;> rfl

theorem unschedule_events_pos (j : Job) (w : World) (hs : is_scheduled j w = true) :
    ∃ h, j.job_id = some h ∧ (unschedule j w).2.2 = [Event.cancel j.queue h] := by
  revert hs
  unfold is_scheduled unschedule
  cases hj : j.job_id with
  | none => intro hs; cases hs
  | some h =>
      intro hs
      have hm : h ∈ (w j.queue).live := by simpa using hs
      exact ⟨h, rfl, by simp [hm]⟩

theorem unschedule_events_neg (j : Job) (w : World) (hs : is_scheduled j w = false) :
    (unschedule j w).2.2 = [] ∧ (unschedule j w).2.1 = w := by
  revert hs
  unfold is_scheduled unschedule
  cases hj : j.job_id with
  | none => intro _; exact ⟨rfl, rfl⟩
  | some h =>
      intro hs
      have hm : h ∉ (w j.queue).live := by simpa using hs
      simp [hm]

theorem schedule_ret_ok (j : Job) (w : World) (hs : is_schedulable j = true)
    (hf : (w j.queue).failEnqueue = false) :
    schedule j w = SchedResult.ret true { j with job_id := some (w j.queue).nextId }
      (updateW w j.queue
        { (w j.queue) with
          live := (w j.queue).nextId :: (w j.queue).live,
          nextId := (w j.queue).nextId + 1 })
      [Event.enqueue j.queue (w j.queue).nextId (timeoutKwarg j)] := by
  unfold schedule Sched.enqueue
  simp [hs, hf]

theorem schedule_raises (j : Job) (w : World) (hs : is_schedulable j = true)
    (hf : (w j.queue).failEnqueue = true) :
    schedule j w = SchedResult.err j w [] := by
  unfold schedule Sched.enqueue
  simp [hs, hf]

theorem schedule_blocked (j : Job) (w : World) (hs : is_schedulable j = false) :
    schedule j w = SchedResult.ret false j w [] := by
  unfold schedule
  simp [hs]

theorem is_schedulable_cleared (j : Job) :
    is_schedulable { j with job_id := none } = j.enabled := rfl

theorem unschedule_no_persist (j : Job) (w : World) :
    Event.persist ∉ (unschedule j w).2.2 := by
  unfold unschedule
  cases j.job_id with
  | none => simp
  | some h => by_cases hm : h ∈ (w j.queue).live <;> simp [hm]

/-- Full case analysis of `save`: the disabled path, the path where the
enqueue raises, and the successful registration path. -/
theorem save_spec (j : Job) (w : World) :
    (j.enabled = false →
      save j w = SaveResult.ok { j with job_id := none } (unschedule j w).2.1
        ((unschedule j w).2.2 ++ [Event.persist])) ∧
    (j.enabled = true → (((unschedule j w).2.1) j.queue).failEnqueue = true →
      save j w = SaveResult.err { j with job_id := none } (unschedule j w).2.1
        (unschedule j w).2.2) ∧
    (j.enabled = true → (((unschedule j w).2.1) j.queue).failEnqueue = false →
      save j w = SaveResult.ok
        { j with job_id := some (((unschedule j w).2.1) j.queue).nextId }
        (updateW (unschedule j w).2.1 j.queue
          { (((unschedule j w).2.1) j.queue) with
            live := (((unschedule j w).2.1) j.queue).nextId ::
              (((unschedule j w).2.1) j.queue).live,
            nextId := (((unschedule j w).2.1) j.queue).nextId + 1 })
        ((unschedule j w).2.2 ++
          [Event.enqueue j.queue (((unschedule j w).2.1) j.queue).nextId (timeoutKwarg j)] ++
          [Event.persist])) := by
  refine ⟨?_, ?_, ?_⟩
  · intro hdis
    unfold save
    rw [unschedule_job]
    simp [hdis]
  · intro hen hf
    unfold save
    rw [unschedule_job]
    have hs : is_schedulable { j with job_id := none } = true := by
      rw [is_schedulable_cleared, hen]
    rw [schedule_raises _ _ hs hf]
    simp [hen]
  · intro hen hf
    unfold save
    rw [unschedule_job]
    have hs : is_schedulable { j with job_id := none } = true := by
      rw [is_schedulable_cleared, hen]
    rw [schedule_ret_ok _ _ hs hf]
    simp [hen]
    rfl

/-! Claim theorems. -/

/-- Claim C1: every completed `save()` performs, in order, the unregister
step (a `cancel` of the existing handle when it is live, nothing
otherwise), then — only if `enabled` — exactly one fresh backend enqueue
whose returned handle is stored into the record, and the durable store
write strictly last. -/
theorem c1_save_order (j : Job) (w : World) (j2 : Job) (w2 : World) (ev : List Event)
    (hok : save j w = SaveResult.ok j2 w2 ev) :
    ∃ cpart epart, ev = cpart ++ epart ++ [Event.persist] ∧
      (is_scheduled j w = true →
        ∃ hdl, j.job_id = some hdl ∧ cpart = [Event.cancel j.queue hdl]) ∧
      (is_scheduled j w = false → cpart = []) ∧
      (j.enabled = true →
        ∃ hdl t, epart = [Event.enqueue j.queue hdl t] ∧ j2.job_id = some hdl) ∧
      (j.enabled = false → epart = [] ∧ j2.job_id = none) := by
  by_cases hen : j.enabled = true
  · by_cases hf : (((unschedule j w).2.1) j.queue).failEnqueue = true
    · rw [(save_spec j w).2.1 hen hf] at hok
      cases hok
    · rw [(save_spec j w).2.2 hen (by simpa using hf)] at hok
      injection hok with h1 h2 h3
      refine ⟨(unschedule j w).2.2,
        [Event.enqueue j.queue (((unschedule j w).2.1) j.queue).nextId (timeoutKwarg j)],
        h3.symm, ?_, ?_, ?_, ?_⟩
      · intro hsch; exact unschedule_events_pos j w hsch
      · intro hsch; exact (unschedule_events_neg j w hsch).1
      · intro _
        exact ⟨(((unschedule j w).2.1) j.queue).nextId, timeoutKwarg j, rfl, by rw [← h1]⟩
      · intro hdis; rw [hen] at hdis; cases hdis
  · have hdis : j.enabled = false := by simpa using hen
    rw [(save_spec j w).1 hdis] at hok
    injection hok with h1 h2 h3
    refine ⟨(unschedule j w).2.2, [], by simpa using h3.symm, ?_, ?_, ?_, ?_⟩
    · intro hsch; exact unschedule_events_pos j w hsch
    · intro hsch; exact (unschedule_events_neg j w hsch).1
    · intro hc; rw [hdis] at hc; cases hc
    · intro _; exact ⟨rfl, by rw [← h1]⟩

/-- Claim C3: after a completed `save()`, a disabled record holds no
registration handle. -/
theorem c3_disabled_implies_null (j : Job) (w : World) (j2 : Job) (w2 : World)
    (ev : List Event) (hok : save j w = SaveResult.ok j2 w2 ev)
    (hdis : j2.enabled = false) : j2.job_id = none := by
  by_cases hen : j.enabled = true
  · by_cases hf : (((unschedule j w).2.1) j.queue).failEnqueue = true
    · rw [(save_spec j w).2.1 hen hf] at hok
      cases hok
    · rw [(save_spec j w).2.2 hen (by simpa using hf)] at hok
      injection hok with h1 h2 h3
      rw [← h1] at hdis
      rw [hen] at hdis
      cases hdis
  · have hd : j.enabled = false := by simpa using hen
    rw [(save_spec j w).1 hd] at hok
    injection hok with h1 h2 h3
    rw [← h1]

/-- Claim C4: when the enqueue step of `save()` raises (backend
unavailable) after the unregister step, the record is left with a null
handle and the store write never happens (no `persist` event). -/
theorem c4_error_path (j : Job) (w : World) (j2 : Job) (w2 : World) (ev : List Event)
    (herr : save j w = SaveResult.err j2 w2 ev) :
    j2.job_id = none ∧ Event.persist ∉ ev := by
  by_cases hen : j.enabled = true
  · by_cases hf : (((unschedule j w).2.1) j.queue).failEnqueue = true
    · rw [(save_spec j w).2.1 hen hf] at herr
      injection herr with h1 h2 h3
      constructor
      · rw [← h1]
      · rw [← h3]; exact unschedule_no_persist j w
    · rw [(save_spec j w).2.2 hen (by simpa using hf)] at herr
      cases herr
  · have hd : j.enabled = false := by simpa using hen
    rw [(save_spec j w).1 hd] at herr
    cases herr

/-- Claim C5 (amended): the unregister step always clears the handle and
never reads `enabled`, but it issues the backend `cancel` call exactly
when `is_scheduled` holds — the handle is non-null AND the backend
reports it live — not merely when the handle is non-null. -/
theorem c5_unschedule_behaviour (j : Job) (w : World) :
    (unschedule j w).1.job_id = none ∧
    (is_scheduled j w = true →
      ∃ h, j.job_id = some h ∧ (unschedule j w).2.2 = [Event.cancel j.queue h]) ∧
    (is_scheduled j w = false →
      (unschedule j w).2.2 = [] ∧ (unschedule j w).2.1 = w) ∧
    (∀ b : Bool,
      (unschedule { j with enabled := b } w).1 = { (unschedule j w).1 with enabled := b } ∧
      (unschedule { j with enabled := b } w).2.1 = (unschedule j w).2.1 ∧
      (unschedule { j with enabled := b } w).2.2 = (unschedule j w).2.2) := by
  refine ⟨?_, unschedule_events_pos j w, unschedule_events_neg j w, ?_⟩
  · rw [unschedule_job]
  · intro b
    unfold unschedule
    cases j.job_id with
    | none => exact ⟨rfl, rfl, rfl⟩
    | some h => by_cases hm : h ∈ (w j.queue).live <;> simp [hm]

/-- Claim C5 counterexample: a record with a non-null handle that the
backend does not report live — `unschedule` issues no `cancel` call, so
the cancel call is not conditioned only on the handle being non-null. -/
theorem c5_counterexample :
    (⟨true, "default", some 5, none, 0, 1, IntervalUnit.hours, none⟩ : Job).job_id = some 5 ∧
    (unschedule (⟨true, "default", some 5, none, 0, 1, IntervalUnit.hours, none⟩ : Job)
      (fun _ => ⟨[], 0, false⟩)).2.2 = [] := by
  exact ⟨rfl, rfl⟩

/-- Claim C6: `is_scheduled` is true exactly when the handle is non-null
and the backend serving the record's queue reports it live. (It is a pure
read: in this embedding its type returns only the boolean, mirroring the
source method, which performs no assignment and no backend mutation.) -/
theorem c6_is_scheduled_iff (j : Job) (w : World) :
    is_scheduled j w = true ↔ ∃ h, j.job_id = some h ∧ h ∈ (w j.queue).live := by
  unfold is_scheduled
  cases hj : j.job_id <;> simp

/-- Claim C7 (amended): validation rejects a `scheduled_time` strictly
before the validation instant with an error scoped to the
`scheduled_time` field, and accepts any `scheduled_time` at or after the
validation instant — in particular one exactly equal to it. -/
theorem c7_future_check (d n : Int) :
    (d < n → clean_scheduled_time d n =
      Except.error { field := "scheduled_time", message := future_time_message }) ∧
    (n ≤ d → clean_scheduled_time d n = Except.ok d) := by
  unfold clean_scheduled_time
  constructor
  · intro h; simp [h]
  · intro h; simp [not_lt.2 h]

/-- Claim C7 counterexample: a `scheduled_time` exactly equal to the
validation instant is accepted, not rejected — the source check is
`data < now()`, so the boundary passes. -/
theorem c7_counterexample : clean_scheduled_time 0 0 = Except.ok 0 := rfl

/-- Claim C8: the interval-to-seconds conversion is exact for every
magnitude and unit, with the claimed concrete values. -/
theorem c8_interval_seconds_exact (n : Nat) :
    interval_seconds IntervalUnit.minutes n = n * 60 ∧
    interval_seconds IntervalUnit.hours n = n * 3600 ∧
    interval_seconds IntervalUnit.days n = n * 86400 ∧
    interval_seconds IntervalUnit.weeks n = n * 604800 ∧
    interval_seconds IntervalUnit.weeks 2 = 1209600 ∧
    interval_seconds IntervalUnit.days 2 = 172800 ∧
    interval_seconds IntervalUnit.hours 2 = 7200 ∧
    interval_seconds IntervalUnit.minutes 15 = 900 := by
  refine ⟨?_, ?_, ?_, ?_, rfl, rfl, rfl, rfl⟩ <;>
    simp [interval_seconds, Timedelta.total_seconds] <;> ring

/-- Claim C9 (amended): the enqueue calls forward the record's timeout
exactly when it is non-null and non-zero (Python truthiness): a null
timeout passes no kwarg, and so does a present timeout of 0. Both the
one-shot and the repeating enqueue pass `timeoutKwarg`. -/
theorem c9_timeout_forwarding (j : Job) (w : World) :
    timeoutKwarg j = (if j.timeout = some 0 then none else j.timeout) ∧
    ((schedule j w).isSuccess = true →
      (schedule j w).revents =
        [Event.enqueue j.queue ((w j.queue)).nextId (timeoutKwarg j)]) ∧
    ((schedule_repeatable j w).isSuccess = true →
      (schedule_repeatable j w).revents =
        [Event.enqueueRep j.queue ((w j.queue)).nextId
          (interval_seconds j.interval_unit j.interval) j.repeat_count (timeoutKwarg j)]) := by
  refine ⟨?_, ?_, ?_⟩
  · unfold timeoutKwarg
    cases j.timeout with
    | none => simp
    | some t => by_cases ht : t = 0 <;> simp [ht]
  · unfold schedule Sched.enqueue
    by_cases hs : is_schedulable j = false
    · simp [hs, SchedResult.isSuccess]
    · by_cases hf : (w j.queue).failEnqueue = true <;>
        simp [hs, hf, SchedResult.isSuccess, SchedResult.revents]
  · unfold schedule_repeatable Sched.enqueue
    by_cases hs : is_schedulable j = false
    · simp [hs, SchedResult.isSuccess]
    · by_cases hf : (w j.queue).failEnqueue = true <;>
        simp [hs, hf, SchedResult.isSuccess, SchedResult.revents]

/-- Claim C9 counterexample: a record with `timeout` present and equal to
0 — the enqueue succeeds but passes no timeout kwarg, so a present
(non-null) timeout is not forwarded. -/
theorem c9_counterexample :
    (⟨true, "default", none, some 0, 0, 1, IntervalUnit.hours, none⟩ : Job).timeout = some 0 ∧
    (schedule (⟨true, "default", none, some 0, 0, 1, IntervalUnit.hours, none⟩ : Job)
      (fun _ => ⟨[], 0, false⟩)).isSuccess = true ∧
    (schedule (⟨true, "default", none, some 0, 0, 1, IntervalUnit.hours, none⟩ : Job)
      (fun _ => ⟨[], 0, false⟩)).revents = [Event.enqueue "default" 0 none] := by
  exact ⟨rfl, rfl, rfl⟩

/-- Claim C10: calling `schedule()` directly with a non-null handle or
with `enabled = false` returns False and changes nothing — no enqueue is
issued, the record and the world are returned untouched. -/
theorem c10_schedule_guard (j : Job) (w : World)
    (h : (∃ hdl, j.job_id = some hdl) ∨ j.enabled = false) :
    schedule j w = SchedResult.ret false j w [] := by
  apply schedule_blocked
  unfold is_schedulable
  rcases h with ⟨hdl, hh⟩ | hh
  · rw [hh]
  · cases hj : j.job_id <;> simp [hh]

/-- Concrete record for the C1 witness: enabled, unregistered. -/
def jc1 : Job := ⟨true, "default", none, none, 0, 1, IntervalUnit.hours, none⟩

/-- Concrete world for the C1 witness: empty backend on every queue. -/
def wc1 : World := fun _ => ⟨[], 0, false⟩

/-- Witness for C1 at a concrete enabled record and empty backend. -/
theorem c1_witness :
    ∃ cpart epart, (save jc1 wc1).sevents = cpart ++ epart ++ [Event.persist] ∧
      (is_scheduled jc1 wc1 = true →
        ∃ hdl, jc1.job_id = some hdl ∧ cpart = [Event.cancel jc1.queue hdl]) ∧
      (is_scheduled jc1 wc1 = false → cpart = []) ∧
      (jc1.enabled = true →
        ∃ hdl t, epart = [Event.enqueue jc1.queue hdl t] ∧
          (save jc1 wc1).sjob.job_id = some hdl) ∧
      (jc1.enabled = false → epart = [] ∧ (save jc1 wc1).sjob.job_id = none) :=
  c1_save_order jc1 wc1 (save jc1 wc1).sjob (save jc1 wc1).sworld (save jc1 wc1).sevents rfl

/-- Concrete record for the C3 witness: disabled, with a stale handle. -/
def jc3 : Job := ⟨false, "default", some 9, none, 0, 1, IntervalUnit.hours, none⟩

/-- Concrete world for the C3 witness: handle 9 live on every queue. -/
def wc3 : World := fun _ => ⟨[9], 10, false⟩

/-- Witness for C3 at a concrete disabled record. -/
theorem c3_witness : (save jc3 wc3).sjob.job_id = none :=
  c3_disabled_implies_null jc3 wc3 (save jc3 wc3).sjob (save jc3 wc3).sworld
    (save jc3 wc3).sevents rfl rfl

/-- Concrete record for the C4 witness: enabled, unregistered. -/
def jc4 : Job := ⟨true, "default", none, none, 0, 1, IntervalUnit.hours, none⟩

/-- Concrete world for the C4 witness: the backend raises on enqueue. -/
def wc4 : World := fun _ => ⟨[], 0, true⟩

/-- Witness for C4 at a concrete record whose enqueue raises. -/
theorem c4_witness :
    (save jc4 wc4).sjob.job_id = none ∧ Event.persist ∉ (save jc4 wc4).sevents :=
  c4_error_path jc4 wc4 (save jc4 wc4).sjob (save jc4 wc4).sworld (save jc4 wc4).sevents rfl

/-- Witness for C10 at a concrete record with a non-null handle. -/
theorem c10_witness :
    schedule (⟨true, "default", some 7, none, 0, 1, IntervalUnit.hours, none⟩ : Job)
      (fun _ => ⟨[], 0, false⟩) =
    SchedResult.ret false
      (⟨true, "default", some 7, none, 0, 1, IntervalUnit.hours, none⟩ : Job)
      (fun _ => ⟨[], 0, false⟩) [] :=
  c10_schedule_guard _ _ (Or.inl ⟨7, rfl⟩)

/-- One `save()` call preserves the registration bookkeeping: the record
keeps its queue, every enqueue the call performs is on that queue with a
fresh handle, and afterwards the only handle issued to this record that
can still be live is the one stored in the record. `issued` is the ghost
list of `(queue, handle)` registrations issued to this record so far. -/
theorem saveRun_inv (j : Job) (w : World) (issued : List (String × Nat))
    (j1 : Job) (w1 : World) (ev1 : List Event)
    (hsv : saveRun j w = (j1, w1, ev1))
    (hlt : ∀ p ∈ issued, p.2 < (w j.queue).nextId)
    (hlive : ∀ p ∈ issued, p.2 ∈ (w j.queue).live → j.job_id = some p.2) :
    j1.queue = j.queue ∧
    (∀ p ∈ issuedPairs ev1, p.1 = j.queue) ∧
    (∀ p ∈ issued ++ issuedPairs ev1, p.2 < (w1 j.queue).nextId) ∧
    (∀ p ∈ issued ++ issuedPairs ev1, p.2 ∈ (w1 j.queue).live → j1.job_id = some p.2) := by
  have hA : ∀ p ∈ issued, p.2 ∉ ((unschedule j w).2.1 j.queue).live := by
    intro p hp hmem
    rcases unschedule_live j w p.2 hmem with ⟨hin, hne⟩
    exact hne (hlive p hp hin)
  have hB : ((unschedule j w).2.1 j.queue).nextId = (w j.queue).nextId :=
    unschedule_nextId j w j.queue
  by_cases hen : j.enabled = true
  · by_cases hf : (((unschedule j w).2.1) j.queue).failEnqueue = true
    · unfold saveRun at hsv
      rw [(save_spec j w).2.1 hen hf] at hsv
      simp only [Prod.mk.injEq] at hsv
      obtain ⟨e1, e2, e3⟩ := hsv
      subst e1; subst e2; subst e3
      refine ⟨rfl, ?_, ?_, ?_⟩
      · rw [unschedule_issued]; intro p hp; cases hp
      · rw [unschedule_issued, List.append_nil, hB]; exact hlt
      · rw [unschedule_issued, List.append_nil]
        intro p hp hmem
        exact absurd hmem (hA p hp)
    · unfold saveRun at hsv
      rw [(save_spec j w).2.2 hen (by simpa using hf)] at hsv
      simp only [Prod.mk.injEq] at hsv
      obtain ⟨e1, e2, e3⟩ := hsv
      subst e1; subst e2; subst e3
      have hiss : issuedPairs ((unschedule j w).2.2 ++
          [Event.enqueue j.queue (((unschedule j w).2.1) j.queue).nextId (timeoutKwarg j)] ++
          [Event.persist]) =
          [(j.queue, (((unschedule j w).2.1) j.queue).nextId)] := by
        rw [issuedPairs_append, issuedPairs_append, unschedule_issued]
        rfl
      rw [hiss]
      rw [updateW_self]
      refine ⟨rfl, ?_, ?_, ?_⟩
      · intro p hp
        rw [List.mem_singleton] at hp
        rw [hp]
      · intro p hp
        rcases List.mem_append.1 hp with h | h
        · have h2 := hlt p h
          rw [hB]
          show p.2 < (w j.queue).nextId + 1
          omega
        · rw [List.mem_singleton] at h
          rw [h]
          simp
      · intro p hp hmem
        rcases List.mem_append.1 hp with h | h
        · rcases List.mem_cons.1 hmem with hh | hh
          · rw [hh]
          · exact absurd hh (hA p h)
        · rw [List.mem_singleton] at h
          rw [h]
  · have hdis : j.enabled = false := by simpa using hen
    unfold saveRun at hsv
    rw [(save_spec j w).1 hdis] at hsv
    simp only [Prod.mk.injEq] at hsv
    obtain ⟨e1, e2, e3⟩ := hsv
    subst e1; subst e2; subst e3
    have hiss : issuedPairs ((unschedule j w).2.2 ++ [Event.persist]) = [] := by
      rw [issuedPairs_append, unschedule_issued]
      rfl
    rw [hiss]
    refine ⟨rfl, ?_, ?_, ?_⟩
    · intro p hp; cases hp
    · rw [List.append_nil, hB]; exact hlt
    · rw [List.append_nil]
      intro p hp hmem
      exact absurd hmem (hA p hp)

/-- Sequencing of `save()` calls and field edits that never touch the
`queue` field preserves the registration bookkeeping of `saveRun_inv`
across a whole run. -/
theorem run_inv (acts : List Act) : ∀ (j : Job) (w : World) (issued : List (String × Nat)),
    (∀ a ∈ acts, a.isSetQueue = false) →
    (∀ p ∈ issued, p.1 = j.queue) →
    (∀ p ∈ issued, p.2 < (w j.queue).nextId) →
    (∀ p ∈ issued, p.2 ∈ (w j.queue).live → j.job_id = some p.2) →
    (run j w acts).1.queue = j.queue ∧
    (∀ p ∈ issued ++ issuedPairs (run j w acts).2.2, p.1 = j.queue) ∧
    (∀ p ∈ issued ++ issuedPairs (run j w acts).2.2,
      p.2 < (((run j w acts).2.1) j.queue).nextId) ∧
    (∀ p ∈ issued ++ issuedPairs (run j w acts).2.2,
      p.2 ∈ (((run j w acts).2.1) j.queue).live → (run j w acts).1.job_id = some p.2) := by
  induction acts with
  | nil =>
      intro j w issued _ hQs hlt hlive
      refine ⟨rfl, ?_, ?_, ?_⟩ <;> simp only [run, issuedPairs, List.append_nil]
      · exact hQs
      · exact hlt
      · exact hlive
  | cons a rest ih =>
      intro j w issued hacts hQs hlt hlive
      have ha : a.isSetQueue = false := hacts a (List.mem_cons_self a rest)
      have hrest : ∀ b ∈ rest, b.isSetQueue = false :=
        fun b hb => hacts b (List.mem_cons_of_mem a hb)
      cases a with
      | setQueue q => cases ha
      | setEnabled b =>
          have ihres := ih { j with enabled := b } w issued hrest hQs hlt hlive
          simp only [run, applyAct, List.nil_append]
          exact ihres
      | setTimeout t =>
          have ihres := ih { j with timeout := t } w issued hrest hQs hlt hlive
          simp only [run, applyAct, List.nil_append]
          exact ihres
      | doSave =>
          rcases hsv : saveRun j w with ⟨j1, w1, ev1⟩
          obtain ⟨f1, f2, f3, f4⟩ := saveRun_inv j w issued j1 w1 ev1 hsv hlt hlive
          have hQs1 : ∀ p ∈ issued ++ issuedPairs ev1, p.1 = j1.queue := by
            rw [f1]
            intro p hp
            rcases List.mem_append.1 hp with h | h
            · exact hQs p h
            · exact f2 p h
          have hlt1 : ∀ p ∈ issued ++ issuedPairs ev1, p.2 < (w1 j1.queue).nextId := by
            rw [f1]; exact f3
          have hlive1 : ∀ p ∈ issued ++ issuedPairs ev1,
              p.2 ∈ (w1 j1.queue).live → j1.job_id = some p.2 := by
            rw [f1]; exact f4
          obtain ⟨g1, g2, g3, g4⟩ := ih j1 w1 (issued ++ issuedPairs ev1) hrest hQs1 hlt1 hlive1
          simp only [run, applyAct, hsv]
          refine ⟨?_, ?_, ?_, ?_⟩
          · rw [g1, f1]
          · intro p hp
            rw [issuedPairs_append, ← List.append_assoc] at hp
            have hq := g2 p hp
            rw [f1] at hq
            exact hq
          · intro p hp
            rw [issuedPairs_append, ← List.append_assoc] at hp
            have hq := g3 p hp
            rw [f1] at hq
            exact hq
          · intro p hp hmem
            rw [issuedPairs_append, ← List.append_assoc] at hp
            rw [← f1] at hmem
            exact g4 p hp hmem

/-- Claim C2 (amended): for every record and every finite sequence of
`save()` calls interleaved with field edits that never change the `queue`
field, at most one of the backend registrations issued to the record
during the run is live at any point (that is, after any prefix of the
sequence). -/
theorem c2_at_most_one_live (j : Job) (w : World) (acts pre : List Act)
    (hacts : ∀ a ∈ acts, a.isSetQueue = false)
    (hpre : pre <+: acts) :
    atMostOneLive ((run j w pre).2.1) (issuedPairs (run j w pre).2.2) := by
  have hp : ∀ a ∈ pre, a.isSetQueue = false := fun a ha => hacts a (hpre.subset ha)
  obtain ⟨g1, g2, g3, g4⟩ := run_inv pre j w [] hp
    (by intro p hp0; cases hp0) (by intro p hp0; cases hp0) (by intro p hp0; cases hp0)
  intro p1 h1 p2 h2 l1 l2
  have q1 : p1.1 = j.queue := g2 p1 (by simpa using h1)
  have q2 : p2.1 = j.queue := g2 p2 (by simpa using h2)
  have e1 : (run j w pre).1.job_id = some p1.2 := by
    apply g4 p1 (by simpa using h1)
    rw [← q1]; exact l1
  have e2 : (run j w pre).1.job_id = some p2.2 := by
    apply g4 p2 (by simpa using h2)
    rw [← q2]; exact l2
  have hsnd : p1.2 = p2.2 := Option.some_inj.1 (e1.symm.trans e2)
  have hfst : p1.1 = p2.1 := by rw [q1, q2]
  exact Prod.ext hfst hsnd

/-- Concrete record for the C2 witness. -/
def jc2 : Job := ⟨true, "default", none, none, 0, 1, IntervalUnit.hours, none⟩

/-- Concrete world for the C2 witness. -/
def wc2 : World := fun _ => ⟨[], 0, false⟩

/-- Concrete action sequence for the C2 witness: save, disable, save. -/
def actsc2 : List Act := [Act.doSave, Act.setEnabled false, Act.doSave]

/-- Concrete prefix for the C2 witness. -/
def prec2 : List Act := [Act.doSave]

/-- Witness for C2 at a concrete record, world and action sequence. -/
theorem c2_witness :
    atMostOneLive ((run jc2 wc2 prec2).2.1) (issuedPairs (run jc2 wc2 prec2).2.2) :=
  c2_at_most_one_live jc2 wc2 actsc2 prec2 (by decide)
    ⟨[Act.setEnabled false, Act.doSave], rfl⟩

/-- Concrete record for the C2 counterexample: enabled, on queue "A". -/
def jx2 : Job := ⟨true, "A", none, none, 0, 1, IntervalUnit.hours, none⟩

/-- Concrete world for the C2 counterexample: empty backends, with
distinct fresh-id counters on the two queues. -/
def wx2 : World := fun q => if q = "B" then ⟨[], 100, false⟩ else ⟨[], 0, false⟩

/-- Concrete action sequence for the C2 counterexample: save, move the
record to queue "B", save again. -/
def actsx2 : List Act := [Act.doSave, Act.setQueue "B", Act.doSave]

/-- Claim C2 counterexample: editing the `queue` field between two saves
leaves the first registration live on queue "A" while a second live
registration is enqueued on queue "B" — two live registrations for one
record, refuting the claim as stated. -/
theorem c2_counterexample :
    ¬ atMostOneLive ((run jx2 wx2 actsx2).2.1) (issuedPairs (run jx2 wx2 actsx2).2.2) := by
  intro hAll
  exact absurd (hAll ("A", 0) (by decide) ("B", 100) (by decide) (by decide) (by decide))
    (by decide)

end DjangoRqScheduler
